import Mathlib

/-!
Verification of the match-statistics engine of the Lorcana match tracker.

The development shallow-embeds the aggregation logic of the repository:
the per-round outcome derivation and statistics fold of
`src/components/EventDetail.tsx` (duplicated in the event list), the
deck-level fold of the deck list, and the counter updates the round form
and the round-deletion handler apply to an event's stored
`wins`/`losses`/`draws` fields.  Machine numbers are modelled as `Nat`
(tallies) and `Int` (stored counters, which receive signed increments);
rate percentages are exact rationals, the final two-decimal display
formatting being a pure post-processing step on them.
-/

namespace Lorcana

/-- A single game inside a round as persisted: a result string (the round
form emits "win" | "loss" | "draw"; every read path compares against these
literals) and whether the player was on the play. -/
structure Game where
  result : String
  onThePlay : Bool
deriving DecidableEq

/-- The derived outcome of a round (EventDetail.tsx lines 162-169). -/
inductive Outcome where
  | win
  | loss
  | draw
deriving DecidableEq

/-- The per-round tally record built by the round-mapping loop of
EventDetail.tsx lines 136-160 (the same loop appears in the event list).
`wins`/`losses`/`draws` are the source's `playerWins`/`playerLosses`/
`playerDraws`, returned as `roundWins`/`roundLosses`/`roundDraws`. -/
structure Tally where
  wins : Nat := 0
  losses : Nat := 0
  draws : Nat := 0
  onPlayWins : Nat := 0
  onPlayLosses : Nat := 0
  onPlayDraws : Nat := 0
  onDrawWins : Nat := 0
  onDrawLosses : Nat := 0
  onDrawDraws : Nat := 0
deriving DecidableEq

/-- One step of the tally loop (EventDetail.tsx lines 147-160): first the
on-play / on-draw bucket, then the overall per-result counters.  A result
string that is none of the three literals falls through every branch. -/
def tallyGame (t : Tally) (g : Game) : Tally :=
  let t :=
    if g.onThePlay then
      if g.result = "win" then { t with onPlayWins := t.onPlayWins + 1 }
      else if g.result = "loss" then { t with onPlayLosses := t.onPlayLosses + 1 }
      else if g.result = "draw" then { t with onPlayDraws := t.onPlayDraws + 1 }
      else t
    else
      if g.result = "win" then { t with onDrawWins := t.onDrawWins + 1 }
      else if g.result = "loss" then { t with onDrawLosses := t.onDrawLosses + 1 }
      else if g.result = "draw" then { t with onDrawDraws := t.onDrawDraws + 1 }
      else t
  if g.result = "win" then { t with wins := t.wins + 1 }
  else if g.result = "loss" then { t with losses := t.losses + 1 }
  else if g.result = "draw" then { t with draws := t.draws + 1 }
  else t

/-- The whole tally pass over a round's games. -/
def tallyGames (games : List Game) : Tally :=
  games.foldl tallyGame {}

/-- Outcome derivation (EventDetail.tsx lines 162-169): win when the tallied
wins exceed the losses, loss when the losses exceed the wins, draw
otherwise. -/
def deriveOutcome (games : List Game) : Outcome :=
  let t := tallyGames games
  if t.wins > t.losses then Outcome.win
  else if t.losses > t.wins then Outcome.loss
  else Outcome.draw

/-- Count of games whose result string is "win". -/
def nWin (games : List Game) : Nat :=
  games.countP (fun g => decide (g.result = "win"))

/-- Count of games whose result string is "loss". -/
def nLoss (games : List Game) : Nat :=
  games.countP (fun g => decide (g.result = "loss"))

/-- Count of games whose result string is "draw". -/
def nDraw (games : List Game) : Nat :=
  games.countP (fun g => decide (g.result = "draw"))

/-- Count of games played on the play. -/
def nOnPlay (games : List Game) : Nat :=
  games.countP (fun g => g.onThePlay)

/-- Count of games played on the draw. -/
def nOnDraw (games : List Game) : Nat :=
  games.countP (fun g => !g.onThePlay)

/-- Count of on-the-play games whose result string is "win". -/
def nOnPlayWin (games : List Game) : Nat :=
  games.countP (fun g => g.onThePlay && decide (g.result = "win"))

/-- Count of on-the-play games whose result string is "loss". -/
def nOnPlayLoss (games : List Game) : Nat :=
  games.countP (fun g => g.onThePlay && decide (g.result = "loss"))

/-- Count of on-the-play games whose result string is "draw". -/
def nOnPlayDraw (games : List Game) : Nat :=
  games.countP (fun g => g.onThePlay && decide (g.result = "draw"))

/-- Count of on-the-draw games whose result string is "win". -/
def nOnDrawWin (games : List Game) : Nat :=
  games.countP (fun g => !g.onThePlay && decide (g.result = "win"))

/-- Count of on-the-draw games whose result string is "loss". -/
def nOnDrawLoss (games : List Game) : Nat :=
  games.countP (fun g => !g.onThePlay && decide (g.result = "loss"))

/-- Count of on-the-draw games whose result string is "draw". -/
def nOnDrawDraw (games : List Game) : Nat :=
  games.countP (fun g => !g.onThePlay && decide (g.result = "draw"))

/-- Closed form of the tally pass: each field is a count over the list. -/
def tallyOf (games : List Game) : Tally :=
  { wins := nWin games
    losses := nLoss games
    draws := nDraw games
    onPlayWins := nOnPlayWin games
    onPlayLosses := nOnPlayLoss games
    onPlayDraws := nOnPlayDraw games
    onDrawWins := nOnDrawWin games
    onDrawLosses := nOnDrawLoss games
    onDrawDraws := nOnDrawDraw games }

theorem foldl_tallyGame (games : List Game) : ∀ t : Tally,
    games.foldl tallyGame t =
      { wins := t.wins + nWin games
        losses := t.losses + nLoss games
        draws := t.draws + nDraw games
        onPlayWins := t.onPlayWins + nOnPlayWin games
        onPlayLosses := t.onPlayLosses + nOnPlayLoss games
        onPlayDraws := t.onPlayDraws + nOnPlayDraw games
        onDrawWins := t.onDrawWins + nOnDrawWin games
        onDrawLosses := t.onDrawLosses + nOnDrawLoss games
        onDrawDraws := t.onDrawDraws + nOnDrawDraw games } := by
  induction games with
  | nil =>
    intro t
    simp [nWin, nLoss, nDraw, nOnPlayWin, nOnPlayLoss, nOnPlayDraw, nOnDrawWin, nOnDrawLoss, nOnDrawDraw]
  | cons g gs ih =>
    intro t
    rw [List.foldl_cons, ih]
    obtain ⟨r, p⟩ := g
    by_cases h1 : r = "win"
    · subst h1
      cases p <;>
        simp [tallyGame, nWin, nLoss, nDraw, nOnPlayWin, nOnPlayLoss, nOnPlayDraw, nOnDrawWin, nOnDrawLoss, nOnDrawDraw, List.countP_cons] <;>
        omega
    · by_cases h2 : r = "loss"
      · subst h2
        cases p <;>
          simp [tallyGame, nWin, nLoss, nDraw, nOnPlayWin, nOnPlayLoss, nOnPlayDraw, nOnDrawWin, nOnDrawLoss, nOnDrawDraw, List.countP_cons] <;>
          omega
      · by_cases h3 : r = "draw"
        · subst h3
          cases p <;>
            simp [tallyGame, nWin, nLoss, nDraw, nOnPlayWin, nOnPlayLoss, nOnPlayDraw, nOnDrawWin, nOnDrawLoss, nOnDrawDraw, List.countP_cons] <;>
            omega
        · cases p <;>
            simp [tallyGame, nWin, nLoss, nDraw, nOnPlayWin, nOnPlayLoss, nOnPlayDraw, nOnDrawWin, nOnDrawLoss, nOnDrawDraw, List.countP_cons,
              h1, h2, h3] <;>
            omega

theorem tallyGames_eq (games : List Game) : tallyGames games = tallyOf games := by
  rw [tallyGames, foldl_tallyGame]
  simp [tallyOf]

/-- Scenario A of the specification: a round consisting of a win on the
play, a win on the draw, and a loss on the play. -/
def scenarioA : List Game :=
  [⟨"win", true⟩, ⟨"win", false⟩, ⟨"loss", true⟩]

/-- C4.  The outcome derivation tallies each game (bucketed by its
`onThePlay` flag) and returns win iff wins exceed losses, loss iff losses
exceed wins, draw otherwise; the empty sequence yields outcome draw with
every count zero, and Scenario A yields outcome win with roundWins = 2,
roundLosses = 1, onPlayWins = 1, onPlayLosses = 1, onDrawWins = 1. -/
theorem deriveOutcome_majority :
    (∀ games : List Game,
      (deriveOutcome games = Outcome.win ↔
        (tallyGames games).wins > (tallyGames games).losses) ∧
      (deriveOutcome games = Outcome.loss ↔
        (tallyGames games).losses > (tallyGames games).wins) ∧
      (deriveOutcome games = Outcome.draw ↔
        (tallyGames games).wins = (tallyGames games).losses)) ∧
    (deriveOutcome [] = Outcome.draw ∧ tallyGames [] = {}) ∧
    (deriveOutcome scenarioA = Outcome.win ∧
      (tallyGames scenarioA).wins = 2 ∧ (tallyGames scenarioA).losses = 1 ∧
      (tallyGames scenarioA).draws = 0 ∧
      (tallyGames scenarioA).onPlayWins = 1 ∧
      (tallyGames scenarioA).onPlayLosses = 1 ∧
      (tallyGames scenarioA).onDrawWins = 1) := by
  refine ⟨fun games => ?_, by decide, by decide⟩
  have h : deriveOutcome games =
      if (tallyGames games).wins > (tallyGames games).losses then Outcome.win
      else if (tallyGames games).losses > (tallyGames games).wins then Outcome.loss
      else Outcome.draw := rfl
  rw [h]
  refine ⟨?_, ?_, ?_⟩ <;> split_ifs with h1 h2 <;> simp_all <;> omega

/-- A result string the read paths recognize: one of the three literals
every tally branch compares against. -/
def validGame (g : Game) : Bool :=
  decide (g.result = "win") || decide (g.result = "loss") || decide (g.result = "draw")

theorem countP_filter_valid (p : Game → Bool)
    (hp : ∀ g, p g = true → validGame g = true) (games : List Game) :
    (games.filter validGame).countP p = games.countP p := by
  induction games with
  | nil => simp
  | cons g gs ih =>
    by_cases hv : validGame g = true
    · simp [List.filter_cons, hv, List.countP_cons, ih]
    · have hpg : ¬ p g = true := fun h => hv (hp g h)
      simp [List.filter_cons, hv, List.countP_cons, ih, hpg]

theorem tallyGames_filter_valid (games : List Game) :
    tallyGames (games.filter validGame) = tallyGames games := by
  rw [tallyGames_eq, tallyGames_eq]
  unfold tallyOf nWin nLoss nDraw nOnPlayWin nOnPlayLoss nOnPlayDraw nOnDrawWin nOnDrawLoss nOnDrawDraw
  congr 1 <;>
    refine countP_filter_valid _ (fun g h => ?_) games <;>
    simp [validGame] <;> simp at h <;> simp [h]

/-- C9 counterexample.  A game whose result string is not one of the enum
values does not make the derivation fail: on the sequence holding only the
malformed game ⟨"banana", true⟩ the derivation still produces an outcome
(draw, with every tally zero) instead of rejecting the input. -/
theorem invalid_result_not_rejected :
    deriveOutcome [⟨"banana", true⟩] = Outcome.draw ∧
    tallyGames [⟨"banana", true⟩] = {} := by
  decide

/-- C9 amended.  There is no `InvalidResult` rejection: the derivation is
total, and a game whose result string is not "win" | "loss" | "draw" falls
through every tally branch, so the derivation agrees with the derivation of
the sequence with the malformed games filtered out and always produces an
outcome. -/
theorem invalid_results_ignored (games : List Game) :
    tallyGames games = tallyGames (games.filter validGame) ∧
    deriveOutcome games = deriveOutcome (games.filter validGame) := by
  have h := tallyGames_filter_valid games
  exact ⟨h.symm, by unfold deriveOutcome; rw [h]⟩

/-- The aggregate statistics record the event views compute live from the
fetched rounds (EventDetail.tsx lines 189-241; the event list is
identical).  A round is identified with its game sequence, the only part
the fold reads. -/
structure Stats where
  totalMatches : Nat := 0
  matchesWon : Nat := 0
  matchesLost : Nat := 0
  matchesDrawn : Nat := 0
  totalGames : Nat := 0
  gamesWon : Nat := 0
  gamesLost : Nat := 0
  gamesDrawn : Nat := 0
  gamesPlayedOnPlay : Nat := 0
  gamesWonOnPlay : Nat := 0
  gamesPlayedOnDraw : Nat := 0
  gamesWonOnDraw : Nat := 0
deriving DecidableEq

/-- One step of the inner game loop of the statistics fold (EventDetail.tsx
lines 209-232), carried alongside the loop-local `playerWins` and
`playerLosses` counters. -/
def statsGameStep (acc : Stats × Nat × Nat) (g : Game) : Stats × Nat × Nat :=
  let s := acc.1
  let pw := acc.2.1
  let pl := acc.2.2
  let s := { s with totalGames := s.totalGames + 1 }
  let step :=
    if g.result = "win" then ({ s with gamesWon := s.gamesWon + 1 }, pw + 1, pl)
    else if g.result = "loss" then ({ s with gamesLost := s.gamesLost + 1 }, pw, pl + 1)
    else if g.result = "draw" then ({ s with gamesDrawn := s.gamesDrawn + 1 }, pw, pl)
    else (s, pw, pl)
  let s := step.1
  let s :=
    if g.onThePlay then
      { s with gamesPlayedOnPlay := s.gamesPlayedOnPlay + 1
               gamesWonOnPlay :=
                 if g.result = "win" then s.gamesWonOnPlay + 1 else s.gamesWonOnPlay }
    else
      { s with gamesPlayedOnDraw := s.gamesPlayedOnDraw + 1
               gamesWonOnDraw :=
                 if g.result = "win" then s.gamesWonOnDraw + 1 else s.gamesWonOnDraw }
  (s, step.2.1, step.2.2)

/-- One round of the statistics fold (EventDetail.tsx lines 204-241):
`totalMatches` is incremented, the games are folded, and the round is
classified by the loop-local `playerWins` / `playerLosses`. -/
def statsRound (s : Stats) (games : List Game) : Stats :=
  match games.foldl statsGameStep ({ s with totalMatches := s.totalMatches + 1 }, 0, 0) with
  | (s2, pw, pl) =>
    if pw > pl then { s2 with matchesWon := s2.matchesWon + 1 }
    else if pl > pw then { s2 with matchesLost := s2.matchesLost + 1 }
    else { s2 with matchesDrawn := s2.matchesDrawn + 1 }

/-- The statistics fold over the rounds of a scope, the Rate Calculator's
count part. -/
def computeStats (rounds : List (List Game)) : Stats :=
  rounds.foldl statsRound {}

/-- Componentwise sum of two statistics records. -/
def statsAdd (a b : Stats) : Stats :=
  { totalMatches := a.totalMatches + b.totalMatches
    matchesWon := a.matchesWon + b.matchesWon
    matchesLost := a.matchesLost + b.matchesLost
    matchesDrawn := a.matchesDrawn + b.matchesDrawn
    totalGames := a.totalGames + b.totalGames
    gamesWon := a.gamesWon + b.gamesWon
    gamesLost := a.gamesLost + b.gamesLost
    gamesDrawn := a.gamesDrawn + b.gamesDrawn
    gamesPlayedOnPlay := a.gamesPlayedOnPlay + b.gamesPlayedOnPlay
    gamesWonOnPlay := a.gamesWonOnPlay + b.gamesWonOnPlay
    gamesPlayedOnDraw := a.gamesPlayedOnDraw + b.gamesPlayedOnDraw
    gamesWonOnDraw := a.gamesWonOnDraw + b.gamesWonOnDraw }

/-- The contribution of a single round to the statistics fold. -/
def roundContrib (games : List Game) : Stats :=
  { totalMatches := 1
    matchesWon := if nWin games > nLoss games then 1 else 0
    matchesLost := if nLoss games > nWin games then 1 else 0
    matchesDrawn := if nWin games = nLoss games then 1 else 0
    totalGames := games.length
    gamesWon := nWin games
    gamesLost := nLoss games
    gamesDrawn := nDraw games
    gamesPlayedOnPlay := nOnPlay games
    gamesWonOnPlay := nOnPlayWin games
    gamesPlayedOnDraw := nOnDraw games
    gamesWonOnDraw := nOnDrawWin games }

/-- Closed form of the statistics fold: each field is a count or a sum over
the round list. -/
def statsOf (rounds : List (List Game)) : Stats :=
  { totalMatches := rounds.length
    matchesWon := rounds.countP (fun gs => decide (nWin gs > nLoss gs))
    matchesLost := rounds.countP (fun gs => decide (nLoss gs > nWin gs))
    matchesDrawn := rounds.countP (fun gs => decide (nWin gs = nLoss gs))
    totalGames := (rounds.map List.length).sum
    gamesWon := (rounds.map nWin).sum
    gamesLost := (rounds.map nLoss).sum
    gamesDrawn := (rounds.map nDraw).sum
    gamesPlayedOnPlay := (rounds.map nOnPlay).sum
    gamesWonOnPlay := (rounds.map (nOnPlayWin)).sum
    gamesPlayedOnDraw := (rounds.map nOnDraw).sum
    gamesWonOnDraw := (rounds.map (nOnDrawWin)).sum }

theorem foldl_statsGameStep (games : List Game) : ∀ (s : Stats) (pw pl : Nat),
    games.foldl statsGameStep (s, pw, pl) =
      ({ s with totalGames := s.totalGames + games.length
                gamesWon := s.gamesWon + nWin games
                gamesLost := s.gamesLost + nLoss games
                gamesDrawn := s.gamesDrawn + nDraw games
                gamesPlayedOnPlay := s.gamesPlayedOnPlay + nOnPlay games
                gamesWonOnPlay := s.gamesWonOnPlay + nOnPlayWin games
                gamesPlayedOnDraw := s.gamesPlayedOnDraw + nOnDraw games
                gamesWonOnDraw := s.gamesWonOnDraw + nOnDrawWin games },
       pw + nWin games, pl + nLoss games) := by
  induction games with
  | nil =>
    intro s pw pl
    simp [nWin, nLoss, nDraw, nOnPlay, nOnDraw, nOnPlayWin, nOnPlayLoss, nOnPlayDraw, nOnDrawWin, nOnDrawLoss, nOnDrawDraw]
  | cons g gs ih =>
    intro s pw pl
    rw [List.foldl_cons]
    obtain ⟨r, p⟩ := g
    by_cases h1 : r = "win"
    · subst h1
      cases p <;>
        simp [statsGameStep, ih, nWin, nLoss, nDraw, nOnPlay, nOnDraw, nOnPlayWin, nOnPlayLoss, nOnPlayDraw,
          nOnDrawWin, nOnDrawLoss, nOnDrawDraw, List.countP_cons] <;>
        omega
    · by_cases h2 : r = "loss"
      · subst h2
        cases p <;>
          simp [statsGameStep, ih, nWin, nLoss, nDraw, nOnPlay, nOnDraw, nOnPlayWin, nOnPlayLoss, nOnPlayDraw,
            nOnDrawWin, nOnDrawLoss, nOnDrawDraw, List.countP_cons] <;>
          omega
      · by_cases h3 : r = "draw"
        · subst h3
          cases p <;>
            simp [statsGameStep, ih, nWin, nLoss, nDraw, nOnPlay, nOnDraw, nOnPlayWin, nOnPlayLoss, nOnPlayDraw,
              nOnDrawWin, nOnDrawLoss, nOnDrawDraw, List.countP_cons] <;>
            omega
        · cases p <;>
            simp [statsGameStep, ih, nWin, nLoss, nDraw, nOnPlay, nOnDraw, nOnPlayWin, nOnPlayLoss, nOnPlayDraw,
              nOnDrawWin, nOnDrawLoss, nOnDrawDraw, List.countP_cons, h1, h2, h3] <;>
            omega

theorem statsRound_eq (s : Stats) (games : List Game) :
    statsRound s games = statsAdd s (roundContrib games) := by
  unfold statsRound
  rw [foldl_statsGameStep]
  by_cases h1 : nWin games > nLoss games
  · simp [h1, statsAdd, roundContrib, Nat.lt_asymm h1, Nat.ne_of_gt h1] <;> omega
  · by_cases h2 : nLoss games > nWin games
    · simp [h1, h2, statsAdd, roundContrib, Nat.ne_of_lt h2] <;> omega
    · have h3 : nWin games = nLoss games := by omega
      simp [h1, h2, statsAdd, roundContrib, h3] <;> omega

theorem foldl_statsRound (rounds : List (List Game)) : ∀ s : Stats,
    rounds.foldl statsRound s = statsAdd s (statsOf rounds) := by
  induction rounds with
  | nil =>
    intro s
    simp [statsAdd, statsOf]
  | cons gs rs ih =>
    intro s
    rw [List.foldl_cons, statsRound_eq, ih]
    simp [statsAdd, statsOf, roundContrib, List.countP_cons]
    refine ⟨by omega, ?_, ?_, ?_, by omega, by omega, by omega, by omega, by omega,
      by omega, by omega, by omega⟩ <;>
      by_cases h1 : nWin gs > nLoss gs <;>
      by_cases h2 : nLoss gs > nWin gs <;>
      by_cases h3 : nWin gs = nLoss gs <;>
      simp [h1, h2, h3] <;>
      omega

theorem computeStats_eq (rounds : List (List Game)) :
    computeStats rounds = statsOf rounds := by
  rw [computeStats, foldl_statsRound]
  simp [statsAdd, statsOf]

/-- The four win-rate percentages (EventDetail.tsx lines 243-246; the same
guarded ternaries appear in the event list and the deck list).  The exact
ratio is modelled as a rational; the source then formats it to two decimal
places for display, a pure function of this value. -/
structure Rates where
  matchWinRate : ℚ
  gameWinRate : ℚ
  onPlayGameWinRate : ℚ
  onDrawGameWinRate : ℚ
deriving DecidableEq

/-- Rate computation from the folded counts, each division guarded by a
positivity test on its denominator. -/
def computeRates (s : Stats) : Rates :=
  { matchWinRate :=
      if s.totalMatches > 0 then ((s.matchesWon : ℚ) / (s.totalMatches : ℚ)) * 100 else 0
    gameWinRate :=
      if s.totalGames > 0 then ((s.gamesWon : ℚ) / (s.totalGames : ℚ)) * 100 else 0
    onPlayGameWinRate :=
      if s.gamesPlayedOnPlay > 0 then
        ((s.gamesWonOnPlay : ℚ) / (s.gamesPlayedOnPlay : ℚ)) * 100
      else 0
    onDrawGameWinRate :=
      if s.gamesPlayedOnDraw > 0 then
        ((s.gamesWonOnDraw : ℚ) / (s.gamesPlayedOnDraw : ℚ)) * 100
      else 0 }

/-- C8.  Every win rate is the guarded ratio of its counts: it equals
numerator / denominator * 100 when the denominator is positive and 0 when
the denominator is zero, so no computation divides by zero. -/
theorem rates_guarded (rounds : List (List Game)) :
    ((computeStats rounds).totalMatches = 0 →
      (computeRates (computeStats rounds)).matchWinRate = 0) ∧
    ((computeStats rounds).totalMatches ≠ 0 →
      (computeRates (computeStats rounds)).matchWinRate =
        ((computeStats rounds).matchesWon : ℚ) / ((computeStats rounds).totalMatches : ℚ) * 100) ∧
    ((computeStats rounds).totalGames = 0 →
      (computeRates (computeStats rounds)).gameWinRate = 0) ∧
    ((computeStats rounds).totalGames ≠ 0 →
      (computeRates (computeStats rounds)).gameWinRate =
        ((computeStats rounds).gamesWon : ℚ) / ((computeStats rounds).totalGames : ℚ) * 100) ∧
    ((computeStats rounds).gamesPlayedOnPlay = 0 →
      (computeRates (computeStats rounds)).onPlayGameWinRate = 0) ∧
    ((computeStats rounds).gamesPlayedOnPlay ≠ 0 →
      (computeRates (computeStats rounds)).onPlayGameWinRate =
        ((computeStats rounds).gamesWonOnPlay : ℚ) /
          ((computeStats rounds).gamesPlayedOnPlay : ℚ) * 100) ∧
    ((computeStats rounds).gamesPlayedOnDraw = 0 →
      (computeRates (computeStats rounds)).onDrawGameWinRate = 0) ∧
    ((computeStats rounds).gamesPlayedOnDraw ≠ 0 →
      (computeRates (computeStats rounds)).onDrawGameWinRate =
        ((computeStats rounds).gamesWonOnDraw : ℚ) /
          ((computeStats rounds).gamesPlayedOnDraw : ℚ) * 100) := by
  refine ⟨fun h => ?_, fun h => ?_, fun h => ?_, fun h => ?_, fun h => ?_, fun h => ?_,
    fun h => ?_, fun h => ?_⟩
  · simp [computeRates, h]
  · simp [computeRates, Nat.pos_of_ne_zero h]
  · simp [computeRates, h]
  · simp [computeRates, Nat.pos_of_ne_zero h]
  · simp [computeRates, h]
  · simp [computeRates, Nat.pos_of_ne_zero h]
  · simp [computeRates, h]
  · simp [computeRates, Nat.pos_of_ne_zero h]

/-- C7.  The statistics fold is permutation-invariant: permuted round lists
give the same counts and therefore the same win rates. -/
theorem computeStats_perm (r1 r2 : List (List Game)) (h : r1.Perm r2) :
    computeStats r1 = computeStats r2 ∧
    computeRates (computeStats r1) = computeRates (computeStats r2) := by
  have hs : computeStats r1 = computeStats r2 := by
    rw [computeStats_eq, computeStats_eq]
    unfold statsOf
    congr 1
    · exact h.length_eq
    · exact h.countP_eq _
    · exact h.countP_eq _
    · exact h.countP_eq _
    · exact (h.map List.length).sum_eq
    · exact (h.map nWin).sum_eq
    · exact (h.map nLoss).sum_eq
    · exact (h.map nDraw).sum_eq
    · exact (h.map nOnPlay).sum_eq
    · exact (h.map nOnPlayWin).sum_eq
    · exact (h.map nOnDraw).sum_eq
    · exact (h.map nOnDrawWin).sum_eq
  exact ⟨hs, by rw [hs]⟩

/-- Witness for C7 at a concrete two-round permutation. -/
theorem computeStats_perm_witness :
    computeStats [scenarioA, [⟨"loss", true⟩]] = computeStats [[⟨"loss", true⟩], scenarioA] ∧
    computeRates (computeStats [scenarioA, [⟨"loss", true⟩]]) =
      computeRates (computeStats [[⟨"loss", true⟩], scenarioA]) :=
  computeStats_perm [scenarioA, [⟨"loss", true⟩]] [[⟨"loss", true⟩], scenarioA] (by decide)

/-- The statistics record the deck list accumulates per deck (DeckList.tsx
lines 63-73); unlike the event views it does not track lost or drawn game
counts. -/
structure DeckStats where
  totalMatches : Nat := 0
  matchesWon : Nat := 0
  matchesLost : Nat := 0
  matchesDrawn : Nat := 0
  totalGames : Nat := 0
  gamesWon : Nat := 0
  gamesPlayedOnPlay : Nat := 0
  gamesWonOnPlay : Nat := 0
  gamesPlayedOnDraw : Nat := 0
  gamesWonOnDraw : Nat := 0
deriving DecidableEq

/-- One step of the deck list's first per-round loop (DeckList.tsx lines
98-101), accumulating `playerWins` and `playerLosses` only. -/
def deckWLStep (a : Nat × Nat) (g : Game) : Nat × Nat :=
  if g.result = "win" then (a.1 + 1, a.2)
  else if g.result = "loss" then (a.1, a.2 + 1)
  else a

/-- The deck list's `playerWins` / `playerLosses` loop over a round. -/
def deckWL (games : List Game) : Nat × Nat :=
  games.foldl deckWLStep (0, 0)

/-- One step of the deck list's second per-round loop (DeckList.tsx lines
111-128), accumulating the game-level counts. -/
def deckGameStep (s : DeckStats) (g : Game) : DeckStats :=
  let s := { s with totalGames := s.totalGames + 1 }
  let s := if g.result = "win" then { s with gamesWon := s.gamesWon + 1 } else s
  if g.onThePlay then
    { s with gamesPlayedOnPlay := s.gamesPlayedOnPlay + 1
             gamesWonOnPlay :=
               if g.result = "win" then s.gamesWonOnPlay + 1 else s.gamesWonOnPlay }
  else
    { s with gamesPlayedOnDraw := s.gamesPlayedOnDraw + 1
             gamesWonOnDraw :=
               if g.result = "win" then s.gamesWonOnDraw + 1 else s.gamesWonOnDraw }

/-- One round of the deck list's fold (DeckList.tsx lines 92-129):
`totalMatches` is incremented, the win/loss loop classifies the round, and
the second loop adds the game-level counts. -/
def deckRound (s : DeckStats) (games : List Game) : DeckStats :=
  let s := { s with totalMatches := s.totalMatches + 1 }
  let wl := deckWL games
  let s :=
    if wl.1 > wl.2 then { s with matchesWon := s.matchesWon + 1 }
    else if wl.2 > wl.1 then { s with matchesLost := s.matchesLost + 1 }
    else { s with matchesDrawn := s.matchesDrawn + 1 }
  games.foldl deckGameStep s

/-- An event as the deck list sees it: its document id, the deck reference,
and the game sequences of its rounds. -/
structure EventRec where
  id : String
  userDeckId : String
  rounds : List (List Game)
deriving DecidableEq

/-- The deck list's per-deck aggregation (DeckList.tsx lines 84-130): filter
the events by `userDeckId`, then fold every round of every matching event
into one running statistics record. -/
def deckStats (events : List EventRec) (deckId : String) : DeckStats :=
  (events.filter (fun e => decide (e.userDeckId = deckId))).foldl
    (fun s e => e.rounds.foldl deckRound s) {}

/-- The deck list's four win rates (DeckList.tsx lines 132-135). -/
def deckRates (s : DeckStats) : Rates :=
  { matchWinRate :=
      if s.totalMatches > 0 then ((s.matchesWon : ℚ) / (s.totalMatches : ℚ)) * 100 else 0
    gameWinRate :=
      if s.totalGames > 0 then ((s.gamesWon : ℚ) / (s.totalGames : ℚ)) * 100 else 0
    onPlayGameWinRate :=
      if s.gamesPlayedOnPlay > 0 then
        ((s.gamesWonOnPlay : ℚ) / (s.gamesPlayedOnPlay : ℚ)) * 100
      else 0
    onDrawGameWinRate :=
      if s.gamesPlayedOnDraw > 0 then
        ((s.gamesWonOnDraw : ℚ) / (s.gamesPlayedOnDraw : ℚ)) * 100
      else 0 }

/-- The deck-list fields of an event-view statistics record. -/
def projStats (s : Stats) : DeckStats :=
  { totalMatches := s.totalMatches
    matchesWon := s.matchesWon
    matchesLost := s.matchesLost
    matchesDrawn := s.matchesDrawn
    totalGames := s.totalGames
    gamesWon := s.gamesWon
    gamesPlayedOnPlay := s.gamesPlayedOnPlay
    gamesWonOnPlay := s.gamesWonOnPlay
    gamesPlayedOnDraw := s.gamesPlayedOnDraw
    gamesWonOnDraw := s.gamesWonOnDraw }

/-- Componentwise sum of two deck statistics records. -/
def deckAdd (a b : DeckStats) : DeckStats :=
  { totalMatches := a.totalMatches + b.totalMatches
    matchesWon := a.matchesWon + b.matchesWon
    matchesLost := a.matchesLost + b.matchesLost
    matchesDrawn := a.matchesDrawn + b.matchesDrawn
    totalGames := a.totalGames + b.totalGames
    gamesWon := a.gamesWon + b.gamesWon
    gamesPlayedOnPlay := a.gamesPlayedOnPlay + b.gamesPlayedOnPlay
    gamesWonOnPlay := a.gamesWonOnPlay + b.gamesWonOnPlay
    gamesPlayedOnDraw := a.gamesPlayedOnDraw + b.gamesPlayedOnDraw
    gamesWonOnDraw := a.gamesWonOnDraw + b.gamesWonOnDraw }

theorem foldl_deckWLStep (games : List Game) : ∀ a : Nat × Nat,
    games.foldl deckWLStep a = (a.1 + nWin games, a.2 + nLoss games) := by
  induction games with
  | nil =>
    intro a
    simp [nWin, nLoss]
  | cons g gs ih =>
    intro a
    rw [List.foldl_cons]
    obtain ⟨r, p⟩ := g
    by_cases h1 : r = "win"
    · subst h1
      simp [deckWLStep, ih, nWin, nLoss, List.countP_cons]
      omega
    · by_cases h2 : r = "loss"
      · subst h2
        simp [deckWLStep, ih, nWin, nLoss, List.countP_cons]
        omega
      · simp [deckWLStep, ih, nWin, nLoss, List.countP_cons, h1, h2]

theorem deckWL_eq (games : List Game) : deckWL games = (nWin games, nLoss games) := by
  rw [deckWL, foldl_deckWLStep]
  simp

theorem foldl_deckGameStep (games : List Game) : ∀ s : DeckStats,
    games.foldl deckGameStep s =
      { s with totalGames := s.totalGames + games.length
               gamesWon := s.gamesWon + nWin games
               gamesPlayedOnPlay := s.gamesPlayedOnPlay + nOnPlay games
               gamesWonOnPlay := s.gamesWonOnPlay + nOnPlayWin games
               gamesPlayedOnDraw := s.gamesPlayedOnDraw + nOnDraw games
               gamesWonOnDraw := s.gamesWonOnDraw + nOnDrawWin games } := by
  induction games with
  | nil =>
    intro s
    simp [nWin, nOnPlay, nOnDraw, nOnPlayWin, nOnDrawWin]
  | cons g gs ih =>
    intro s
    rw [List.foldl_cons]
    obtain ⟨r, p⟩ := g
    by_cases h1 : r = "win"
    · subst h1
      cases p <;>
        simp [deckGameStep, ih, nWin, nOnPlay, nOnDraw, nOnPlayWin, nOnDrawWin,
          List.countP_cons] <;>
        omega
    · cases p <;>
        simp [deckGameStep, ih, nWin, nOnPlay, nOnDraw, nOnPlayWin, nOnDrawWin,
          List.countP_cons, h1] <;>
        omega

theorem deckRound_eq (s : DeckStats) (games : List Game) :
    deckRound s games = deckAdd s (projStats (roundContrib games)) := by
  unfold deckRound
  rw [deckWL_eq, foldl_deckGameStep]
  by_cases h1 : nWin games > nLoss games
  · simp [h1, deckAdd, projStats, roundContrib, Nat.lt_asymm h1, Nat.ne_of_gt h1] <;> omega
  · by_cases h2 : nLoss games > nWin games
    · simp [h1, h2, deckAdd, projStats, roundContrib, Nat.ne_of_lt h2] <;> omega
    · have h3 : nWin games = nLoss games := by omega
      simp [h1, h2, deckAdd, projStats, roundContrib, h3] <;> omega

theorem foldl_deckRound (rounds : List (List Game)) : ∀ s : DeckStats,
    rounds.foldl deckRound s = deckAdd s (projStats (statsOf rounds)) := by
  induction rounds with
  | nil =>
    intro s
    simp [deckAdd, projStats, statsOf]
  | cons gs rs ih =>
    intro s
    rw [List.foldl_cons, deckRound_eq, ih]
    simp [deckAdd, projStats, statsOf, roundContrib, List.countP_cons]
    refine ⟨by omega, ?_, ?_, ?_, by omega, by omega, by omega, by omega, by omega, by omega⟩ <;>
      by_cases h1 : nWin gs > nLoss gs <;>
      by_cases h2 : nLoss gs > nWin gs <;>
      by_cases h3 : nWin gs = nLoss gs <;>
      simp [h1, h2, h3] <;>
      omega

theorem statsOf_append (a b : List (List Game)) :
    statsOf (a ++ b) = statsAdd (statsOf a) (statsOf b) := by
  simp [statsOf, statsAdd, List.countP_append, List.sum_append]

theorem deckAdd_assoc (a b c : DeckStats) :
    deckAdd (deckAdd a b) c = deckAdd a (deckAdd b c) := by
  simp [deckAdd]
  omega

theorem projStats_add (a b : Stats) :
    projStats (statsAdd a b) = deckAdd (projStats a) (projStats b) := rfl

theorem foldl_deckEvents (l : List EventRec) : ∀ s : DeckStats,
    l.foldl (fun s e => e.rounds.foldl deckRound s) s =
      deckAdd s (projStats (statsOf ((l.map EventRec.rounds).flatten))) := by
  induction l with
  | nil =>
    intro s
    simp [deckAdd, projStats, statsOf]
  | cons e l ih =>
    intro s
    rw [List.foldl_cons, foldl_deckRound, ih]
    rw [List.map_cons, List.flatten_cons, statsOf_append, projStats_add, deckAdd_assoc]

/-- C6.  Deck-level statistics are the event-level statistics fold applied
once to the union (concatenation) of the rounds of every event whose
`userDeckId` equals the deck's id: both the counts and the four win rates
(each division performed once, over the union's totals) agree with the
single fold over the union. -/
theorem deckStats_is_union_fold (events : List EventRec) (deckId : String) :
    deckStats events deckId =
      projStats (computeStats
        (((events.filter (fun e => decide (e.userDeckId = deckId))).map
          EventRec.rounds).flatten)) ∧
    deckRates (deckStats events deckId) =
      computeRates (computeStats
        (((events.filter (fun e => decide (e.userDeckId = deckId))).map
          EventRec.rounds).flatten)) := by
  have h1 : deckStats events deckId =
      projStats (computeStats
        (((events.filter (fun e => decide (e.userDeckId = deckId))).map
          EventRec.rounds).flatten)) := by
    rw [deckStats, foldl_deckEvents, computeStats_eq]
    simp [deckAdd, projStats]
  refine ⟨h1, ?_⟩
  rw [h1]
  rfl

/-- The per-result game counts a round mutation computes before writing:
`currentRoundWins`/`Losses`/`Draws` in the round form's submit handler
(and the identical loops for `previousRound...` there and for
`eventWins`/`Losses`/`Draws` in the round-deletion handler). -/
structure GameTally where
  wins : Nat := 0
  losses : Nat := 0
  draws : Nat := 0
deriving DecidableEq

/-- One step of the per-result counting loop of the round form. -/
def gameTallyStep (c : GameTally) (g : Game) : GameTally :=
  if g.result = "win" then { c with wins := c.wins + 1 }
  else if g.result = "loss" then { c with losses := c.losses + 1 }
  else if g.result = "draw" then { c with draws := c.draws + 1 }
  else c

/-- The per-result game counts of a game sequence. -/
def gameCounts (games : List Game) : GameTally :=
  games.foldl gameTallyStep {}

theorem foldl_gameTallyStep (games : List Game) : ∀ c : GameTally,
    games.foldl gameTallyStep c =
      { wins := c.wins + nWin games
        losses := c.losses + nLoss games
        draws := c.draws + nDraw games } := by
  induction games with
  | nil =>
    intro c
    simp [nWin, nLoss, nDraw]
  | cons g gs ih =>
    intro c
    rw [List.foldl_cons]
    obtain ⟨r, p⟩ := g
    by_cases h1 : r = "win"
    · subst h1
      simp [gameTallyStep, ih, nWin, nLoss, nDraw, List.countP_cons]
      omega
    · by_cases h2 : r = "loss"
      · subst h2
        simp [gameTallyStep, ih, nWin, nLoss, nDraw, List.countP_cons]
        omega
      · by_cases h3 : r = "draw"
        · subst h3
          simp [gameTallyStep, ih, nWin, nLoss, nDraw, List.countP_cons]
          omega
        · simp [gameTallyStep, ih, nWin, nLoss, nDraw, List.countP_cons, h1, h2, h3]

theorem gameCounts_eq (games : List Game) :
    gameCounts games = ⟨nWin games, nLoss games, nDraw games⟩ := by
  rw [gameCounts, foldl_gameTallyStep]
  simp

/-- A round document as persisted under an event. -/
structure RoundRec where
  id : String
  opponentInkColors : List String
  games : List Game
  createdAt : Nat
deriving DecidableEq

/-- An event's mutable server state: the three stored running counters
(integers, since the code applies signed relative increments) and the
persisted round documents. -/
structure EventState where
  wins : Int
  losses : Int
  draws : Int
  rounds : List RoundRec
deriving DecidableEq

/-- Adding a round (round form submit handler, add branch): the round
document is appended and each event counter is incremented by the new
round's per-result game count. -/
def addRound (st : EventState) (rid : String) (inks : List String)
    (games : List Game) (now : Nat) : EventState :=
  { st with
    wins := st.wins + ((gameCounts games).wins : Int)
    losses := st.losses + ((gameCounts games).losses : Int)
    draws := st.draws + ((gameCounts games).draws : Int)
    rounds := st.rounds ++ [⟨rid, inks, games, now⟩] }

/-- Editing a round (round form submit handler, edit branch): the round
document with the given id receives the new games and opponent ink colors,
and each counter is incremented by the difference between the new and the
previous per-result game counts, the previous counts being taken from the
round data captured when the edit was opened. -/
def editRound (st : EventState) (rid : String) (prevGames : List Game)
    (inks : List String) (games : List Game) : EventState :=
  { st with
    wins := st.wins + (((gameCounts games).wins : Int) - ((gameCounts prevGames).wins : Int))
    losses := st.losses +
      (((gameCounts games).losses : Int) - ((gameCounts prevGames).losses : Int))
    draws := st.draws + (((gameCounts games).draws : Int) - ((gameCounts prevGames).draws : Int))
    rounds := st.rounds.map (fun r =>
      if r.id = rid then { r with opponentInkColors := inks, games := games } else r) }

/-- Deleting a round (event list deletion handler): the round document is
removed and each counter is decremented by the per-result game count of the
deleted round's games, passed in from the in-memory list. -/
def deleteRound (st : EventState) (rid : String) (games : List Game) : EventState :=
  { st with
    wins := st.wins - ((gameCounts games).wins : Int)
    losses := st.losses - ((gameCounts games).losses : Int)
    draws := st.draws - ((gameCounts games).draws : Int)
    rounds := st.rounds.filter (fun r => decide (r.id ≠ rid)) }

/-- Total number of win games over the stored rounds. -/
def winsSum (rounds : List RoundRec) : Int :=
  (rounds.map (fun r => ((gameCounts r.games).wins : Int))).sum

/-- Total number of loss games over the stored rounds. -/
def lossesSum (rounds : List RoundRec) : Int :=
  (rounds.map (fun r => ((gameCounts r.games).losses : Int))).sum

/-- Total number of draw games over the stored rounds. -/
def drawsSum (rounds : List RoundRec) : Int :=
  (rounds.map (fun r => ((gameCounts r.games).draws : Int))).sum

/-- The invariant the write paths actually maintain: each stored counter
equals the total per-result GAME count over the persisted rounds. -/
def countersInv (st : EventState) : Prop :=
  st.wins = winsSum st.rounds ∧ st.losses = lossesSum st.rounds ∧
    st.draws = drawsSum st.rounds

/-- The invariant claimed by the specification: each stored counter counts
the persisted rounds whose derived outcome matches it. -/
def outcomeInv (st : EventState) : Prop :=
  st.wins = (st.rounds.countP (fun r => decide (deriveOutcome r.games = Outcome.win)) : Int) ∧
  st.losses = (st.rounds.countP (fun r => decide (deriveOutcome r.games = Outcome.loss)) : Int) ∧
  st.draws = (st.rounds.countP (fun r => decide (deriveOutcome r.games = Outcome.draw)) : Int)

/-- A round name used by the concrete test states. -/
def ridOne : String := "r1"

/-- C1 counterexample.  The round-count invariant of the specification is
not preserved by the add-round mutation: starting from an empty event with
all counters zero (which satisfies it), adding the round [win, win]
(derived outcome win, one win round) leaves wins = 2, not 1. -/
theorem outcome_invariant_broken_by_add :
    outcomeInv ⟨0, 0, 0, []⟩ ∧
    ¬ outcomeInv (addRound ⟨0, 0, 0, []⟩ ridOne [] [⟨"win", true⟩, ⟨"win", true⟩] 0) := by
  unfold outcomeInv
  decide

theorem map_editKeep (rid : String) (inks : List String) (games : List Game)
    (l : List RoundRec) (h : ∀ r ∈ l, r.id ≠ rid) :
    l.map (fun r =>
      if r.id = rid then { r with opponentInkColors := inks, games := games } else r) = l := by
  induction l with
  | nil => rfl
  | cons r l ih =>
    rw [List.map_cons, if_neg (h r (by simp)), ih (fun x hx => h x (by simp [hx]))]

theorem filter_delKeep (rid : String) (l : List RoundRec) (h : ∀ r ∈ l, r.id ≠ rid) :
    l.filter (fun r => !decide (r.id = rid)) = l := by
  induction l with
  | nil => rfl
  | cons r l ih =>
    have hr : r.id ≠ rid := h r (by simp)
    have hl2 : ∀ x ∈ l, x.id ≠ rid := fun x hx => h x (by simp [hx])
    rw [List.filter_cons]
    simp [hr, ih hl2]

/-- C1 (amended).  The invariant the write paths maintain is the game-count
one: after an add, an edit, or a delete, each stored counter equals the
total number of games with the matching result over the rounds then
persisted (not the number of rounds with the matching derived outcome).
Edits and deletes assume the target id identifies exactly one stored round
and that the previous games handed to the operation are that round's
stored games, which is how the UI calls them. -/
theorem counters_track_game_counts (st : EventState) (hinv : countersInv st) :
    (∀ rid inks games now, countersInv (addRound st rid inks games now)) ∧
    (∀ rid inks games l1 r0 l2,
      st.rounds = l1 ++ r0 :: l2 → r0.id = rid →
      (∀ r ∈ l1, r.id ≠ rid) → (∀ r ∈ l2, r.id ≠ rid) →
      countersInv (editRound st rid r0.games inks games)) ∧
    (∀ rid l1 r0 l2,
      st.rounds = l1 ++ r0 :: l2 → r0.id = rid →
      (∀ r ∈ l1, r.id ≠ rid) → (∀ r ∈ l2, r.id ≠ rid) →
      countersInv (deleteRound st rid r0.games)) := by
  obtain ⟨hw, hl, hd⟩ := hinv
  refine ⟨fun rid inks games now => ?_, fun rid inks games l1 r0 l2 hdec hid h1 h2 => ?_,
    fun rid l1 r0 l2 hdec hid h1 h2 => ?_⟩
  · refine ⟨?_, ?_, ?_⟩ <;>
      simp [addRound, winsSum, lossesSum, drawsSum, List.sum_append] at hw hl hd ⊢ <;>
      omega
  · rw [hdec] at hw hl hd
    refine ⟨?_, ?_, ?_⟩ <;>
      simp [editRound, hdec, map_editKeep rid inks games l1 h1,
        map_editKeep rid inks games l2 h2, if_pos hid, winsSum, lossesSum, drawsSum,
        List.sum_append] at hw hl hd ⊢ <;>
      omega
  · rw [hdec] at hw hl hd
    refine ⟨?_, ?_, ?_⟩ <;>
      simp [deleteRound, hdec, List.filter_append, List.filter_cons,
        filter_delKeep rid l1 h1, filter_delKeep rid l2 h2, hid, winsSum, lossesSum,
        drawsSum, List.sum_append] at hw hl hd ⊢ <;>
      omega

/-- Witness for C1: on a one-round event satisfying the game-count
invariant, editing that round preserves the invariant. -/
theorem counters_track_game_counts_witness :
    countersInv (editRound ⟨2, 1, 0, [⟨ridOne, [], scenarioA, 0⟩]⟩ ridOne scenarioA []
      [⟨"loss", true⟩]) := by
  have h := (counters_track_game_counts ⟨2, 1, 0, [⟨ridOne, [], scenarioA, 0⟩]⟩
    (by unfold countersInv winsSum lossesSum drawsSum; decide)).2.1
    ridOne [] [⟨"loss", true⟩] [] ⟨ridOne, [], scenarioA, 0⟩ []
    rfl rfl (by simp) (by simp)
  exact h

/-- C2 counterexample.  Adding the round [win, win] (derived outcome win)
to an event with all counters zero increments wins by 2, not by 1. -/
theorem addRound_not_outcome_increment :
    deriveOutcome [⟨"win", true⟩, ⟨"win", true⟩] = Outcome.win ∧
    (addRound ⟨0, 0, 0, []⟩ ridOne [] [⟨"win", true⟩, ⟨"win", true⟩] 0).wins = 2 ∧
    ¬ (addRound ⟨0, 0, 0, []⟩ ridOne [] [⟨"win", true⟩, ⟨"win", true⟩] 0).wins = 0 + 1 := by
  decide

/-- C2 (amended).  Adding a non-empty round increments each stored counter
by the round's per-result GAME count: wins by the number of win games,
losses by the number of loss games, draws by the number of draw games. -/
theorem addRound_adds_game_counts (st : EventState) (rid : String) (inks : List String)
    (games : List Game) (now : Nat) (h : games ≠ []) :
    (addRound st rid inks games now).wins = st.wins + (nWin games : Int) ∧
    (addRound st rid inks games now).losses = st.losses + (nLoss games : Int) ∧
    (addRound st rid inks games now).draws = st.draws + (nDraw games : Int) := by
  simp [addRound, gameCounts_eq]

/-- Witness for C2 at the one-game round [win]. -/
theorem addRound_adds_game_counts_witness :
    (addRound ⟨0, 0, 0, []⟩ ridOne [] [⟨"win", true⟩] 0).wins =
      (0 : Int) + (nWin [⟨"win", true⟩] : Int) ∧
    (addRound ⟨0, 0, 0, []⟩ ridOne [] [⟨"win", true⟩] 0).losses =
      (0 : Int) + (nLoss [⟨"win", true⟩] : Int) ∧
    (addRound ⟨0, 0, 0, []⟩ ridOne [] [⟨"win", true⟩] 0).draws =
      (0 : Int) + (nDraw [⟨"win", true⟩] : Int) :=
  addRound_adds_game_counts ⟨0, 0, 0, []⟩ ridOne [] [⟨"win", true⟩] 0 (by decide)

/-- Scenario C's pre-state: one stored round [win, win] with counters
{wins 1, losses 0, draws 0}. -/
def scenarioCState : EventState :=
  ⟨1, 0, 0, [⟨ridOne, [], [⟨"win", true⟩, ⟨"win", true⟩], 0⟩]⟩

/-- C3 counterexample.  Scenario C: editing the round from [win, win]
(outcome win) to [loss, loss, draw] (outcome loss) on counters
{1, 0, 0} yields {-1, 2, 1}, not the {0, 1, 0} the specification claims;
the applied deltas -2, +2, +1 lie outside {-1, 0, +1}. -/
theorem scenarioC_not_outcome_delta :
    deriveOutcome [⟨"win", true⟩, ⟨"win", true⟩] = Outcome.win ∧
    deriveOutcome [⟨"loss", true⟩, ⟨"loss", true⟩, ⟨"draw", true⟩] = Outcome.loss ∧
    (editRound scenarioCState ridOne [⟨"win", true⟩, ⟨"win", true⟩] []
      [⟨"loss", true⟩, ⟨"loss", true⟩, ⟨"draw", true⟩]).wins = -1 ∧
    (editRound scenarioCState ridOne [⟨"win", true⟩, ⟨"win", true⟩] []
      [⟨"loss", true⟩, ⟨"loss", true⟩, ⟨"draw", true⟩]).losses = 2 ∧
    (editRound scenarioCState ridOne [⟨"win", true⟩, ⟨"win", true⟩] []
      [⟨"loss", true⟩, ⟨"loss", true⟩, ⟨"draw", true⟩]).draws = 1 ∧
    ¬ ((editRound scenarioCState ridOne [⟨"win", true⟩, ⟨"win", true⟩] []
        [⟨"loss", true⟩, ⟨"loss", true⟩, ⟨"draw", true⟩]).wins = 0 ∧
      (editRound scenarioCState ridOne [⟨"win", true⟩, ⟨"win", true⟩] []
        [⟨"loss", true⟩, ⟨"loss", true⟩, ⟨"draw", true⟩]).losses = 1 ∧
      (editRound scenarioCState ridOne [⟨"win", true⟩, ⟨"win", true⟩] []
        [⟨"loss", true⟩, ⟨"loss", true⟩, ⟨"draw", true⟩]).draws = 0) := by
  decide

/-- C3 (amended).  The delta an edit applies to each counter equals the
difference of per-result GAME counts between the new and the previous game
sequences — a value that need not lie in {-1, 0, +1}. -/
theorem editRound_delta_game_counts (st : EventState) (rid : String)
    (prevGames : List Game) (inks : List String) (games : List Game) :
    (editRound st rid prevGames inks games).wins =
      st.wins + ((nWin games : Int) - (nWin prevGames : Int)) ∧
    (editRound st rid prevGames inks games).losses =
      st.losses + ((nLoss games : Int) - (nLoss prevGames : Int)) ∧
    (editRound st rid prevGames inks games).draws =
      st.draws + ((nDraw games : Int) - (nDraw prevGames : Int)) := by
  simp [editRound, gameCounts_eq]

/-- C5.  Round trip: adding a round and then deleting that same round (same
id, same games) restores all three stored counters to their pre-add
values. -/
theorem add_delete_round_trip (st : EventState) (rid : String) (inks : List String)
    (games : List Game) (now : Nat) :
    (deleteRound (addRound st rid inks games now) rid games).wins = st.wins ∧
    (deleteRound (addRound st rid inks games now) rid games).losses = st.losses ∧
    (deleteRound (addRound st rid inks games now) rid games).draws = st.draws := by
  refine ⟨?_, ?_, ?_⟩ <;> simp [addRound, deleteRound]

/-- C10.  Frame property of the round edit: the list of rounds keeps its
length; a stored round whose id differs from the edited one is unchanged;
the round with the edited id receives exactly the new games and opponent
ink colors, keeping its id and createdAt. -/
theorem editRound_frame (st : EventState) (rid : String) (prevGames : List Game)
    (inks : List String) (games : List Game) :
    (editRound st rid prevGames inks games).rounds.length = st.rounds.length ∧
    (∀ i : Nat, ∀ r : RoundRec, st.rounds[i]? = some r →
      (r.id ≠ rid → (editRound st rid prevGames inks games).rounds[i]? = some r) ∧
      (r.id = rid → (editRound st rid prevGames inks games).rounds[i]? =
        some { r with opponentInkColors := inks, games := games })) := by
  constructor
  · simp [editRound]
  · intro i r hr
    constructor
    · intro hne
      simp [editRound, List.getElem?_map, hr, hne]
    · intro he
      simp [editRound, List.getElem?_map, hr, he]

end Lorcana
